import Mathlib

/-!
Verification of the structured logging subsystem of `src/app/logger.js`
(tg-bot-template).  The JavaScript module is shallowly embedded: JS values
are an inductive `JVal`, JS objects are insertion-ordered association lists,
and each public logging operation becomes a Lean function from an explicit
ambient environment (`process.cwd()`, `__filename`, the live stack captured
by `new Error()`) to the record handed to the winston core, or to a thrown
exception (`Except JsExc _`) where the source can throw.
-/

namespace TgBotLogger

/-- A JavaScript runtime exception kind, as far as the claims need it. -/
inductive JsExc where
  | typeError
  | referenceError
  deriving DecidableEq, Repr

/-- JavaScript values restricted to what the logging module manipulates:
strings, numbers, booleans, `null`, `undefined`, plain objects, and `Error`
instances (which carry `name`, `message` and an optional `stack` string). -/
inductive JVal where
  | str : String → JVal
  | num : Int → JVal
  | jbool : Bool → JVal
  | null : JVal
  | undefV : JVal
  | obj : List (String × JVal) → JVal
  | errv : String → String → Option String → JVal
  deriving Repr

/-- A JS object: insertion-ordered association list of fields. -/
abbrev ObjMap := List (String × JVal)

/-- JS truthiness (`if (v)`). Objects and Error instances are always truthy. -/
def JVal.truthy : JVal → Bool
  | .str s => s ≠ ""
  | .num n => n ≠ 0
  | .jbool b => b
  | .null => false
  | .undefV => false
  | .obj _ => true
  | .errv _ _ _ => true

/-- Field lookup in an object literal: the value of the first (hence only,
for well-formed objects) binding of `k`. -/
def lookupK (m : ObjMap) (k : String) : Option JVal :=
  match m.find? (fun p => p.1 == k) with
  | some p => some p.2
  | none => none

/-- How many bindings of key `k` an object holds. -/
def countK (m : ObjMap) (k : String) : Nat :=
  (m.filter (fun p => p.1 == k)).length

/-- JS property write / object-literal field insertion: an existing binding
of `k` is overwritten in place (JS objects keep the first-insertion position
of a key), otherwise the binding is appended. -/
def setK (m : ObjMap) (k : String) (v : JVal) : ObjMap :=
  if m.any (fun p => p.1 == k) then
    m.map (fun p => if p.1 == k then (k, v) else p)
  else
    m ++ [(k, v)]

/-- Spread an association list into an accumulating object
(`{...acc, ...fields}`): later bindings override earlier ones in place. -/
def spreadInto (acc : ObjMap) (fields : ObjMap) : ObjMap :=
  fields.foldl (fun a p => setK a p.1 p.2) acc

/-- `{...acc, ...v}` for an arbitrary JS value `v`: objects contribute their
fields, strings contribute their index-keyed characters, every other
primitive (including `null` and `undefined`) contributes nothing. -/
def spreadJ (acc : ObjMap) : JVal → ObjMap
  | .obj fs => spreadInto acc fs
  | .str s =>
      spreadInto acc (s.data.enum.map (fun p => (toString p.1, JVal.str (String.mk [p.2]))))
  | _ => acc

/-- `v.k` property read.  Reading a property of a primitive yields
`undefined`; the throwing cases (`null`/`undefined` receiver) are modelled
explicitly at the call sites that can reach them. -/
def JVal.getProp : JVal → String → JVal
  | .obj fs, k => (lookupK fs k).getD .undefV
  | _, _ => .undefV

/-- Optional chaining `v?.k`. -/
def JVal.getPropOpt (v : JVal) (k : String) : JVal :=
  match v with
  | .null => .undefV
  | .undefV => .undefV
  | _ => v.getProp k

/-- `String(v)` as used by template literals: total, `null`/`undefined`
render as words. -/
def jsCoerceStr : JVal → String
  | .str s => s
  | .num n => toString n
  | .jbool b => if b then "true" else "false"
  | .null => "null"
  | .undefV => "undefined"
  | .obj _ => "[object Object]"
  | .errv n m _ => n ++ ": " ++ m

/-- `v.toString()`: a method call, so a `null` or `undefined` receiver
throws a TypeError. -/
def jsToString : JVal → Except JsExc String
  | .null => .error .typeError
  | .undefV => .error .typeError
  | v => .ok (jsCoerceStr v)

/-! ## Character-level string helpers (kernel-reducible replacements for the
JS string primitives the module uses). -/

/-- JS WhiteSpace ∪ LineTerminator, the set removed by `String.prototype.trim`
(the rarely-seen Unicode space separators are included by code point). -/
def jsWhiteB (c : Char) : Bool :=
  c == ' ' || c == '\t' || c == '\n' || c == '\r' ||
  c.val == 0x0b || c.val == 0x0c || c.val == 0xa0 || c.val == 0xfeff ||
  c.val == 0x2028 || c.val == 0x2029

/-- `message.trim()`: drop leading and trailing whitespace. -/
def jsTrim (s : String) : String :=
  String.mk (((s.data.dropWhile jsWhiteB).reverse.dropWhile jsWhiteB).reverse)

/-- Split a character list at every occurrence of `sep` (JS
`s.split(sep)` for a one-character separator). -/
def splitCharList (sep : Char) : List Char → List (List Char)
  | [] => [[]]
  | c :: cs =>
      match splitCharList sep cs with
      | [] => [[]]
      | g :: gs => if c == sep then [] :: g :: gs else (c :: g) :: gs

/-- JS `s.split(sep)` for a one-character separator. -/
def jsSplit (sep : Char) (s : String) : List String :=
  (splitCharList sep s.data).map String.mk

/-- JS `hay.includes(needle)`. -/
def containsSubL (needle : List Char) : List Char → Bool
  | [] => needle.isPrefixOf []
  | c :: cs => needle.isPrefixOf (c :: cs) || containsSubL needle cs

/-- JS `hay.includes(needle)` on strings. -/
def containsSub (hay needle : String) : Bool :=
  containsSubL needle.data hay.data

/-- JS `s.startsWith(pre)` (kernel-reducible). -/
def jsStartsWith (s pre : String) : Bool :=
  pre.data.isPrefixOf s.data

/-- `parseInt` on a run of decimal digits. -/
def digitsToNat (cs : List Char) : Nat :=
  cs.foldl (fun acc c => 10 * acc + (c.toNat - '0'.toNat)) 0

/-! ## Node `path` model (POSIX).

`path.relative(from, to)` resolves both arguments to absolute normalized
paths (relative arguments are resolved against the current working
directory), drops the common prefix of their components, and joins
`".."`-segments for what remains of `from` with what remains of `to`. -/

/-- Path components of a POSIX path string (empty components dropped). -/
def splitPath (s : String) : List String :=
  (jsSplit '/' s).filter (fun c => c ≠ "")

/-- Normalize the components of an absolute path: `.` disappears, `..` pops
(clamped at the root, as `path.resolve` does). -/
def normAbs (cs : List String) : List String :=
  cs.foldl
    (fun acc c =>
      if c = "." then acc
      else if c = ".." then acc.dropLast
      else acc ++ [c])
    []

/-- `path.isAbsolute` on POSIX. -/
def pathIsAbsolute (p : String) : Bool := jsStartsWith p "/"

/-- Resolve `p` against the working directory `cwd`, as component list. -/
def resolveAbs (cwd p : String) : List String :=
  if pathIsAbsolute p then normAbs (splitPath p)
  else normAbs (splitPath cwd ++ splitPath p)

/-- Drop the longest common prefix of two component lists. -/
def dropCommon : List String → List String → List String × List String
  | a :: as, b :: bs =>
      if a = b then dropCommon as bs else (a :: as, b :: bs)
  | as, bs => (as, bs)

/-- `path.relative(cwd, to)` on POSIX, with `cwd` the working directory. -/
def pathRelative (cwd dst : String) : String :=
  let f := normAbs (splitPath cwd)
  let t := resolveAbs cwd dst
  let (f2, t2) := dropCommon f t
  String.intercalate "/" (List.replicate f2.length ".." ++ t2)

/-! ## CallerResolver: `getCallerInfo` (logger.js lines 17-74). -/

/-- A V8 call-site object as `getCallerInfo` consumes it: `getFileName()`
may yield `null`, `getLineNumber()` may yield `null`. -/
structure StackFrame where
  getFileName : Option String
  getLineNumber : Option Nat
  deriving DecidableEq, Repr

/-- The resolver result `{file, line}`; the sentinel is
`{file := "unknown", line := 0}`. -/
structure CallerLoc where
  file : String
  line : Nat
  deriving DecidableEq, Repr

/-- Ambient process state a logging call runs in: `process.cwd()`, the
module's own `__filename`, and the live stack that `new Error()` inside
`getCallerInfo` captures (innermost first, already past the capture point). -/
structure LoggerEnv where
  cwd : String
  filename : String
  frames : List StackFrame

/-- The `shouldSkip` disjunction of logger.js lines 41-49, applied to a
frame's (non-null) file name; `cwd` is `process.cwd()`, `filename` is the
logging module's `__filename`. -/
def shouldSkip (cwd filename fn : String) : Bool :=
  let relativePath := pathRelative cwd fn
  containsSub relativePath "node_modules" ||
  containsSub relativePath "logger.js" ||
  containsSub fn "winston" ||
  containsSub fn "daily-rotate-file" ||
  jsStartsWith relativePath ".." ||
  fn == filename ||
  relativePath == "" ||
  relativePath == "."

/-- A frame survives the loop filter when its file name resolves and
`!shouldSkip && relativePath` holds (logger.js line 51). -/
def qualifies (cwd filename : String) (f : StackFrame) : Bool :=
  match f.getFileName with
  | none => false
  | some fn => !shouldSkip cwd filename fn && pathRelative cwd fn ≠ ""

/-- The `for` loop of logger.js lines 32-56 over the frames that remain
after the initial skip, yielding `(callerfile, callerline)` (with
`callerline || 0` already applied). -/
def callerLoop (cwd filename : String) : List StackFrame → String × Nat
  | [] => ("unknown", 0)
  | f :: rest =>
      if qualifies cwd filename f then
        (match f.getFileName with
         | some fn => fn
         | none => "unknown",
         f.getLineNumber.getD 0)
      else callerLoop cwd filename rest

/-- `getCallerInfo` with the mutation of the global
`Error.prepareStackTrace` hook made explicit.  `orig` is the hook's value on
entry, `custom` the temporary formatter installed at line 25, and `capture`
is the outcome of reading `err.stack`: `.ok frames` on success, `.error ()`
when stack capture throws (the `catch` of line 57).  The pair returned is
the resolver's result together with the hook's value after line 63. -/
def getCallerInfoFull (Hook : Type) (orig custom : Hook)
    (capture : Except Unit (List StackFrame))
    (cwd filename : String) (skipFrames : Nat) : CallerLoc × Hook :=
  -- line 18: originalFunc = Error.prepareStackTrace
  let originalFunc := orig
  -- line 25 (inside try): the custom formatter is installed
  let st1 := custom
  -- lines 29-56 run under st1; line 57-61 absorbs a capture failure
  let (callerfile, callerline, _st2) :=
    match capture with
    | .ok stack =>
        let r := callerLoop cwd filename (stack.drop skipFrames)
        (r.1, r.2, st1)
    | .error _ => ("unknown", 0, st1)
  -- line 63 (after the catch, on every path): the hook is restored
  let stFinal := originalFunc
  let relativePath :=
    if callerfile ≠ "unknown" then pathRelative cwd callerfile else "unknown"
  (⟨relativePath, callerline⟩, stFinal)

/-- `getCallerInfo(skipFrames)` on a successful stack capture. -/
def getCallerInfo (env : LoggerEnv) (skipFrames : Nat) : CallerLoc :=
  (getCallerInfoFull Unit () () (.ok env.frames) env.cwd env.filename skipFrames).1

/-- The `caller.file:caller.line` string every wrapper attaches. -/
def callerStr (env : LoggerEnv) (skipFrames : Nat) : String :=
  let caller := getCallerInfo env skipFrames
  caller.file ++ ":" ++ toString caller.line

/-! ## ErrorLocationExtractor: `getErrorLocation` (logger.js lines 276-324).

The two regular expressions of line 291-292 are embedded as abstract
expressions and run by a backtracking matcher with JavaScript semantics:
leftmost match position wins; at one position a greedy `?` tries its body
first, a lazy `+?` extends only on demand, a greedy `+` backtracks from the
longest extent. -/

/-- Capture store: group index to captured text. -/
abbrev Caps := List (Nat × String)

/-- Regular expressions as logger.js uses them: single-character atoms,
sequencing, greedy option, lazy and greedy one-or-more of a character
class, and numbered capture groups. -/
inductive RE where
  | lit : Char → RE
  | cls : (Char → Bool) → RE
  | seq : RE → RE → RE
  | opt : RE → RE
  | plusL : (Char → Bool) → RE
  | plusG : (Char → Bool) → RE
  | grp : Nat → RE → RE

/-- Lazy `p+?`: consume one `p`-character, hand over to the continuation,
extend only when the continuation fails. -/
def plusLRun (p : Char → Bool) (k : List Char → Option Caps) :
    List Char → Option Caps
  | [] => none
  | c :: cs =>
      if p c then
        match k cs with
        | some r => some r
        | none => plusLRun p k cs
      else none

/-- Greedy `p+`: prefer the longest extent, backtrack one character at a
time when the continuation fails. -/
def plusGRun (p : Char → Bool) (k : List Char → Option Caps) :
    List Char → Option Caps
  | [] => none
  | c :: cs =>
      if p c then
        match plusGRun p k cs with
        | some r => some r
        | none => k cs
      else none

/-- Record a capture. -/
def setCap (caps : Caps) (i : Nat) (s : String) : Caps :=
  (i, s) :: caps.filter (fun q => q.1 ≠ i)

/-- Backtracking matcher in continuation style; `k` receives the rest of
the input and the captures of the path taken. -/
def reMatch : RE → List Char → Caps → (List Char → Caps → Option Caps) →
    Option Caps
  | .lit c, s, caps, k =>
      match s with
      | [] => none
      | x :: xs => if x == c then k xs caps else none
  | .cls p, s, caps, k =>
      match s with
      | [] => none
      | x :: xs => if p x then k xs caps else none
  | .seq a b, s, caps, k => reMatch a s caps (fun s2 c2 => reMatch b s2 c2 k)
  | .opt a, s, caps, k =>
      match reMatch a s caps k with
      | some r => some r
      | none => k s caps
  | .plusL p, s, caps, k => plusLRun p (fun s2 => k s2 caps) s
  | .plusG p, s, caps, k => plusGRun p (fun s2 => k s2 caps) s
  | .grp i a, s, caps, k =>
      reMatch a s caps
        (fun s2 c2 =>
          k s2 (setCap c2 i (String.mk (s.take (s.length - s2.length)))))

/-- Unanchored search (`line.match(re)`): try each start position left to
right, captures of the first success. -/
def reSearch (re : RE) (s : List Char) : Option Caps :=
  match reMatch re s [] (fun _ c => some c) with
  | some r => some r
  | none =>
      match s with
      | [] => none
      | _ :: rest => reSearch re rest

/-- JS `.` : anything but a line terminator. -/
def jsDot (c : Char) : Bool :=
  !(c == '\n' || c == '\r' || c.val == 0x2028 || c.val == 0x2029)

/-- `[^()]`. -/
def notParen (c : Char) : Bool := !(c == '(' || c == ')')

/-- `[^\\\/\s]`. -/
def notSlashSpace (c : Char) : Bool :=
  !(c == '\\' || c == '/' || jsWhiteB c)

/-- Sequence a list of expressions. -/
def seqAll : List RE → RE
  | [] => .opt (.lit 'x')
  | [r] => r
  | r :: rs => .seq r (seqAll rs)

/-- Literal word as a sequence. -/
def reWord (s : String) : List RE := s.data.map RE.lit

/-- First pattern of logger.js line 291:
`(?:at .+? \()?([^()]+\.js):(\d+)(?::\d+)?\)?`. -/
def errRe1 : RE :=
  seqAll
    [ .opt (seqAll (reWord "at " ++ [.plusL jsDot] ++ reWord " ("))
    , .grp 1 (seqAll ([.plusG notParen] ++ reWord ".js"))
    , .lit ':'
    , .grp 2 (.plusG Char.isDigit)
    , .opt (.seq (.lit ':') (.plusG Char.isDigit))
    , .opt (.lit ')') ]

/-- Second pattern of logger.js line 292: `([^\\\/\s]+\.js):(\d+)`. -/
def errRe2 : RE :=
  seqAll
    [ .grp 1 (seqAll ([.plusG notSlashSpace] ++ reWord ".js"))
    , .lit ':'
    , .grp 2 (.plusG Char.isDigit) ]

/-- Captured text of group `i`. -/
def lookupCap (caps : Caps) (i : Nat) : Option String :=
  match caps.find? (fun q => q.1 == i) with
  | some q => some q.2
  | none => none

/-- `line.match(re1) || line.match(re2)`, reduced to the pair the loop body
uses: the captured path (`match[1]`) and `parseInt(match[2])`. -/
def lineMatch (line : String) : Option (String × Nat) :=
  let m :=
    match reSearch errRe1 line.data with
    | some caps => some caps
    | none => reSearch errRe2 line.data
  match m with
  | none => none
  | some caps =>
      match lookupCap caps 1, lookupCap caps 2 with
      | some p, some d => some (p, digitsToNat d.data)
      | _, _ => none

/-- `error.stack` for the values `getErrorLocation` can receive. -/
def jsGetStack : JVal → JVal
  | .errv _ _ (some st) => .str st
  | .errv _ _ none => .undefV
  | v => v.getProp "stack"

/-- The per-line loop of logger.js lines 285-318: first line whose match
carries a path outside `node_modules` determines the result; a matching
line whose path is inside `node_modules` is skipped (the loop moves on to
the next line). -/
def errLocLoop (cwd : String) : List String → CallerLoc
  | [] => ⟨"unknown", 0⟩
  | line :: rest =>
      match lineMatch line with
      | some (fullPath, lineNumber) =>
          if !containsSub fullPath "node_modules" then
            let relativePath :=
              if pathIsAbsolute fullPath then pathRelative cwd fullPath
              else fullPath
            let relativePath :=
              String.mk (relativePath.data.map
                (fun c => if c == '\\' then '/' else c))
            ⟨relativePath, lineNumber⟩
          else errLocLoop cwd rest
      | none => errLocLoop cwd rest

/-- `getErrorLocation(error)` (logger.js lines 276-324).  The guard
`if (!error || !error.stack)` returns the sentinel; a truthy non-string
stack would make `split` throw, which the internal `catch` turns into the
sentinel as well. -/
def getErrorLocation (cwd : String) (error : JVal) : CallerLoc :=
  if !error.truthy || !(jsGetStack error).truthy then ⟨"unknown", 0⟩
  else
    match jsGetStack error with
    | .str st => errLocLoop cwd (jsSplit '\n' st)
    | _ => ⟨"unknown", 0⟩

/-! ## LogRecordBuilder: the public wrapper functions.

Each wrapper is modelled as the record it hands to the winston core
(level, message, metadata object), or the exception it lets escape.  The
winston-side `defaultMeta` injection and the printf formatting do not touch
the claims and stay outside the model. -/

/-- One log record as handed to `logger.log`/`logger.info`/…: the level,
the message argument, and the metadata object built by the wrapper. -/
structure LogCall where
  level : String
  message : JVal
  meta : ObjMap
  deriving Repr

/-- Property read whose receiver may be `null`/`undefined` (which throws
TypeError in JS). -/
def getPropEx (v : JVal) (k : String) : Except JsExc JVal :=
  match v with
  | .null => .error .typeError
  | .undefV => .error .typeError
  | _ => .ok (v.getProp k)

/-- `Object.keys(v).length`. -/
def objKeysLen : JVal → Nat
  | .obj fs => fs.length
  | .str s => s.data.length
  | _ => 0

/-- `logAction(action, details, level)` (logger.js lines 204-216).  Every
step of the `try` body is total in the model, so the `catch` fallback is
unreachable here. -/
def logAction (env : LoggerEnv) (action : String) (details : JVal)
    (level : String) : LogCall :=
  { level := level
    message := .str action
    meta := setK (spreadJ [] details) "caller" (.str (callerStr env 2)) }

/-- `logUserMessage(user, message, userState)` (logger.js lines 224-248).
Reading `.username` of a `null`/`undefined` user and `.length` of a
`null`/`undefined` message throw TypeError; there is no `try` around this
function. -/
def logUserMessage (env : LoggerEnv) (user message userState : JVal) :
    Except JsExc LogCall :=
  let caller := getCallerInfo env 2
  match user with
  | .null => .error .typeError
  | .undefV => .error .typeError
  | _ =>
    let uname := user.getProp "username"
    let _username :=
      if uname.truthy then "@" ++ jsCoerceStr uname
      else "ID:" ++ jsCoerceStr (user.getProp "id")
    let firstName :=
      if (user.getProp "first_name").truthy then user.getProp "first_name"
      else .str ""
    let lastName :=
      if (user.getProp "last_name").truthy then user.getProp "last_name"
      else .str ""
    let fullName :=
      jsTrim (jsCoerceStr firstName ++ " " ++ jsCoerceStr lastName)
    match message with
    | .null => .error .typeError
    | .undefV => .error .typeError
    | _ =>
      let msgVal : JVal :=
        match message with
        | .str s =>
            -- message.length > 500 ? message.substring(0, 500) + '...' : message
            .str (if 500 < s.data.length
                  then String.mk (s.data.take 500) ++ "..."
                  else s)
        | m => m
      let logData : ObjMap :=
        [ ("userId", user.getProp "id")
        , ("username", user.getProp "username")
        , ("fullName", if fullName ≠ "" then .str fullName else .null)
        , ("message", msgVal)
        , ("caller", .str (caller.file ++ ":" ++ toString caller.line)) ]
      let logData :=
        if userState.truthy then
          let ld := setK logData "userState"
            (if (userState.getProp "current").truthy then
              userState.getProp "current"
             else userState)
          if (userState.getProp "data").truthy &&
             0 < objKeysLen (userState.getProp "data") then
            setK ld "stateData" (userState.getProp "data")
          else ld
        else logData
      .ok { level := "info", message := .str "user_message", meta := logData }

/-- `logUserAction(action, ctx, details)` (logger.js lines 256-269):
`{ userId: ctx.from?.id, username: ctx.from?.username, ...details,
...ctx.userState, ...ctx.user, caller }`. -/
def logUserAction (env : LoggerEnv) (action : String) (ctx details : JVal) :
    Except JsExc LogCall := do
  let caller := getCallerInfo env 2
  let fromV ← getPropEx ctx "from"
  let us ← getPropEx ctx "userState"
  let uu ← getPropEx ctx "user"
  let base : ObjMap :=
    [ ("userId", fromV.getPropOpt "id")
    , ("username", fromV.getPropOpt "username") ]
  .ok { level := "info"
        message := .str action
        meta := setK (spreadJ (spreadJ (spreadJ base details) us) uu)
                  "caller" (.str (caller.file ++ ":" ++ toString caller.line)) }

/-- `logError(error, ctx, meta)` (logger.js lines 331-365).  On the
`error instanceof Error` branch the object literal handed to
`logger.error` spreads the identifier `context`, which is declared nowhere
in the module (the parameter is named `ctx`): evaluating the literal
raises a ReferenceError before any record is emitted.  On the other branch
(`{...ctx.userState, ...ctx.user, ...meta, caller}`) a record is built. -/
def logError (env : LoggerEnv) (error ctx meta : JVal) :
    Except JsExc LogCall :=
  match error with
  | .errv _name _msg _stack =>
      let errorLocation := getErrorLocation env.cwd error
      let _caller :=
        if errorLocation.file ≠ "unknown" then
          errorLocation.file ++ ":" ++ toString errorLocation.line
        else callerStr env 2
      .error .referenceError
  | _ => do
      let callerInfo := getCallerInfo env 2
      let s ← jsToString error
      let us ← getPropEx ctx "userState"
      let uu ← getPropEx ctx "user"
      .ok { level := "error"
            message := .str s
            meta := setK (spreadJ (spreadJ (spreadJ [] us) uu) meta)
              "caller"
              (.str (callerInfo.file ++ ":" ++ toString callerInfo.line)) }

/-- `logInfo(message, ctx, meta)` (logger.js lines 372-380). -/
def logInfo (env : LoggerEnv) (message : String) (ctx meta : JVal) :
    Except JsExc LogCall := do
  let caller := getCallerInfo env 2
  let us ← getPropEx ctx "userState"
  let uu ← getPropEx ctx "user"
  .ok { level := "info"
        message := .str message
        meta := setK (spreadJ (spreadJ (spreadJ [] us) uu) meta)
          "caller" (.str (caller.file ++ ":" ++ toString caller.line)) }

/-- `logWarn(message, ctx, meta)` (logger.js lines 387-395). -/
def logWarn (env : LoggerEnv) (message : String) (ctx meta : JVal) :
    Except JsExc LogCall := do
  let caller := getCallerInfo env 2
  let us ← getPropEx ctx "userState"
  let uu ← getPropEx ctx "user"
  .ok { level := "warn"
        message := .str message
        meta := setK (spreadJ (spreadJ (spreadJ [] us) uu) meta)
          "caller" (.str (caller.file ++ ":" ++ toString caller.line)) }

/-- `logDebug(message, ctx, meta)` (logger.js lines 402-410). -/
def logDebug (env : LoggerEnv) (message : String) (ctx meta : JVal) :
    Except JsExc LogCall := do
  let caller := getCallerInfo env 2
  let us ← getPropEx ctx "userState"
  let uu ← getPropEx ctx "user"
  .ok { level := "debug"
        message := .str message
        meta := setK (spreadJ (spreadJ (spreadJ [] us) uu) meta)
          "caller" (.str (caller.file ++ ":" ++ toString caller.line)) }

/-- `logWithCaller(level, message, customCaller, meta)` (logger.js lines
419-424): both resolvers are bypassed. -/
def logWithCaller (level message customCaller : String) (meta : JVal) :
    LogCall :=
  { level := level
    message := .str message
    meta := setK (spreadJ [] meta) "caller" (.str customCaller) }

/-- `stream.write(message)` (logger.js lines 427-431):
`logger.info(message.trim(), { caller: 'http/morgan' })`. -/
def streamWrite (message : String) : LogCall :=
  { level := "info"
    message := .str (jsTrim message)
    meta := [("caller", JVal.str "http/morgan")] }

/-! ## TimestampFormatter (logger.js lines 91-99 and 125-141).

Instants are milliseconds since the epoch; the host timezone enters as
`getTimezoneOffset()` (minutes, UTC minus local).  `toISOString` renders
the UTC wall clock of its Date; `toLocaleString` renders the host-local
wall clock, i.e. the UTC wall clock of `m - tzOffsetMin * 60000`. -/

/-- Two-digit field. -/
def pad2 (n : Nat) : String :=
  if n < 10 then "0" ++ toString n else toString n

/-- Four-digit year. -/
def pad4 (n : Int) : String :=
  let m := n.toNat
  if m < 10 then "000" ++ toString m
  else if m < 100 then "00" ++ toString m
  else if m < 1000 then "0" ++ toString m
  else toString m

/-- Civil date from days since 1970-01-01 (proleptic Gregorian). -/
def civilFromDays (z0 : Int) : Int × Int × Int :=
  let z := z0 + 719468
  let era : Int := (if 0 ≤ z then z else z - 146096) / 146097
  let doe := z - era * 146097
  let yoe := (doe - doe / 1460 + doe / 36524 - doe / 146096) / 365
  let y := yoe + era * 400
  let doy := doe - (365 * yoe + yoe / 4 - yoe / 100)
  let mp := (5 * doy + 2) / 153
  let d := doy - (153 * mp + 2) / 5 + 1
  let m := mp + (if mp < 10 then 3 else -9)
  (y + (if m ≤ 2 then 1 else 0), m, d)

/-- The UTC wall clock of instant `ms`, as the sortable
`"YYYY-MM-DD HH:MM:SS"` string (`toISOString` with `'T'` replaced by a
space and the fraction stripped). -/
def renderUTC (ms : Int) : String :=
  let s := Int.fdiv ms 1000
  let days := Int.fdiv s 86400
  let sod := (s - days * 86400).toNat
  let (y, mo, d) := civilFromDays days
  pad4 y ++ "-" ++ pad2 mo.toNat ++ "-" ++ pad2 d.toNat ++ " " ++
    pad2 (sod / 3600) ++ ":" ++ pad2 (sod % 3600 / 60) ++ ":" ++
    pad2 (sod % 60)

/-- File-sink timestamp (logger.js lines 92-98): `utc = getTime() +
getTimezoneOffset()*60000`, shift by five hours, render with
`toISOString` (which shows the UTC wall clock of the shifted instant). -/
def fileTimestamp (tzOffsetMin t : Int) : String :=
  let utc := t + tzOffsetMin * 60000
  let tashkentTime := utc + 5 * 3600000
  renderUTC tashkentTime

/-- Console-sink timestamp (logger.js lines 126-139): same shifted Date,
rendered with `toLocaleString('en-GB', …)` — i.e. in the HOST timezone,
showing the UTC wall clock of `tashkentTime - tzOffsetMin*60000` — then
reordered by `.replace(/(\d+)\/(\d+)\/(\d+),/, '$3-$2-$1')` from
`"DD/MM/YYYY, HH:MM:SS"` into the same sortable shape. -/
def consoleTimestamp (tzOffsetMin t : Int) : String :=
  let utc := t + tzOffsetMin * 60000
  let tashkentTime := utc + 5 * 3600000
  renderUTC (tashkentTime - tzOffsetMin * 60000)

/-- The projection the theorems use: the metadata object of the record a
call emitted (empty when the call threw). -/
def metaOf : Except JsExc LogCall → ObjMap
  | .ok r => r.meta
  | .error _ => []

/-- The message value of the record a call emitted. -/
def messageOf : Except JsExc LogCall → Option JVal
  | .ok r => some r.message
  | .error _ => none

/-- A concrete ambient environment: the claim's synthetic call stack
`[loggerWrapperA, loggerWrapperB, appModuleX, dependencyModuleY]` with the
project root at `/project` and the logging module at
`/project/app/logger.js`. -/
def envSynth : LoggerEnv :=
  ⟨"/project", "/project/app/logger.js",
   [⟨some "/project/app/logger.js", some 200⟩,
    ⟨some "/project/app/logger.js", some 100⟩,
    ⟨some "/project/app/moduleX.js", some 10⟩,
    ⟨some "/project/node_modules/y/index.js", some 5⟩]⟩

/-- A request context carrying an ambient `userState` object and an ambient
`user` object, as the wrappers read it (`ctx.userState`, `ctx.user`). -/
def mkCtx (us uu : ObjMap) : JVal :=
  .obj [("userState", .obj us), ("user", .obj uu)]

/-! ## Object-map lemmas. -/

/-- Keys of an object, in order. -/
def keysOf (m : ObjMap) : List String := m.map Prod.fst

/-- Well-formed object: no key bound twice.  Every object the module builds
(object literals, spreads, property writes) is of this shape. -/
def WFm (m : ObjMap) : Prop := (keysOf m).Nodup

theorem WFm_nil : WFm [] := List.nodup_nil

theorem lookupK_cons (a : String × JVal) (m : ObjMap) (k : String) :
    lookupK (a :: m) k = if a.1 = k then some a.2 else lookupK m k := by
  obtain ⟨ak, av⟩ := a
  by_cases h : ak = k
  · have hb : (ak == k) = true := by simp [h]
    simp [lookupK, List.find?, hb, h]
  · have hb : (ak == k) = false := by simp [h]
    simp [lookupK, List.find?, hb, h]

theorem lookupK_eq_none_of_not_mem {m : ObjMap} {k : String}
    (h : k ∉ keysOf m) : lookupK m k = none := by
  induction m with
  | nil => rfl
  | cons a rest ih =>
      simp only [keysOf, List.map_cons, List.mem_cons, not_or] at h
      rw [lookupK_cons, if_neg (fun hh => h.1 hh.symm)]
      exact ih (by simpa [keysOf] using h.2)

theorem map_replace_of_not_any (m : ObjMap) (k : String) (v : JVal)
    (h : ¬ m.any (fun p => p.1 == k)) :
    m.map (fun p => if p.1 == k then (k, v) else p) = m := by
  induction m with
  | nil => rfl
  | cons a rest ih =>
      obtain ⟨ak, av⟩ := a
      simp only [List.any_cons, Bool.or_eq_true, not_or, beq_iff_eq] at h
      rw [List.map_cons, if_neg (show ¬(((ak, av).1 == k) = true) by
          simp [h.1]),
        ih (by simpa using h.2)]

theorem lookupK_map_replace_ne (m : ObjMap) (k : String) (v : JVal)
    {k' : String} (h : k' ≠ k) :
    lookupK (m.map (fun p => if p.1 == k then (k, v) else p)) k' =
    lookupK m k' := by
  induction m with
  | nil => rfl
  | cons a rest ih =>
      obtain ⟨ak, av⟩ := a
      rw [List.map_cons]
      by_cases ha : ak = k
      · rw [if_pos (show ((ak, av).1 == k) = true by simp [ha]),
          lookupK_cons, lookupK_cons,
          if_neg (show ¬((k, v).1 = k') from fun hh => h hh.symm),
          if_neg (show ¬((ak, av).1 = k') from fun hh => h (ha ▸ hh).symm)]
        exact ih
      · rw [if_neg (show ¬(((ak, av).1 == k) = true) by simp [ha]),
          lookupK_cons, lookupK_cons]
        by_cases hk' : ak = k'
        · simp [hk']
        · simp only [hk', if_false]
          exact ih

theorem lookupK_map_replace_self (m : ObjMap) (k : String) (v : JVal)
    (h : m.any (fun p => p.1 == k)) :
    lookupK (m.map (fun p => if p.1 == k then (k, v) else p)) k = some v := by
  induction m with
  | nil => simp at h
  | cons a rest ih =>
      obtain ⟨ak, av⟩ := a
      rw [List.map_cons]
      by_cases ha : ak = k
      · rw [if_pos (show ((ak, av).1 == k) = true by simp [ha]),
          lookupK_cons, if_pos (show (k, v).1 = k from rfl)]
      · simp only [List.any_cons, Bool.or_eq_true, beq_iff_eq, ha,
          false_or] at h
        rw [if_neg (show ¬(((ak, av).1 == k) = true) by simp [ha]),
          lookupK_cons, if_neg (show ¬((ak, av).1 = k) from ha)]
        exact ih (by simpa using h)

theorem lookupK_append_singleton_ne (m : ObjMap) (k : String) (v : JVal)
    {k' : String} (h : k' ≠ k) :
    lookupK (m ++ [(k, v)]) k' = lookupK m k' := by
  induction m with
  | nil =>
      have hb : (k == k') = false := by simp [Ne.symm h]
      simp [lookupK, List.find?, hb]
  | cons a rest ih =>
      rw [List.cons_append, lookupK_cons, lookupK_cons]
      by_cases ha : a.1 = k'
      · simp [ha]
      · simp only [ha, if_false]
        exact ih

theorem lookupK_append_singleton_self (m : ObjMap) (k : String) (v : JVal)
    (h : lookupK m k = none) :
    lookupK (m ++ [(k, v)]) k = some v := by
  induction m with
  | nil => simp [lookupK, List.find?]
  | cons a rest ih =>
      rw [lookupK_cons] at h
      rw [List.cons_append, lookupK_cons]
      by_cases ha : a.1 = k
      · simp [ha] at h
      · simp only [ha, if_false] at h ⊢
        exact ih h

theorem lookupK_setK (m : ObjMap) (k : String) (v : JVal) (k' : String) :
    lookupK (setK m k v) k' =
    if k' = k then some v else lookupK m k' := by
  unfold setK
  by_cases hm : m.any (fun p => p.1 == k)
  · simp only [hm, if_true]
    by_cases h : k' = k
    · subst h
      rw [lookupK_map_replace_self m k' v hm]
      simp
    · rw [lookupK_map_replace_ne m k v h, if_neg h]
  · rw [if_neg hm]
    by_cases h : k' = k
    · subst h
      rw [if_pos rfl]
      apply lookupK_append_singleton_self
      apply lookupK_eq_none_of_not_mem
      simp only [List.any_eq_true, beq_iff_eq] at hm
      push_neg at hm
      simp only [keysOf, List.mem_map, not_exists]
      intro p hpk
      obtain ⟨hp, hk⟩ := hpk
      exact hm p hp hk
    · rw [lookupK_append_singleton_ne m k v h, if_neg h]

theorem spreadInto_cons (acc : ObjMap) (a : String × JVal) (fs : ObjMap) :
    spreadInto acc (a :: fs) = spreadInto (setK acc a.1 a.2) fs := rfl

theorem lookupK_spreadInto_not_mem {fs : ObjMap} {k : String} (acc : ObjMap)
    (h : k ∉ keysOf fs) :
    lookupK (spreadInto acc fs) k = lookupK acc k := by
  induction fs generalizing acc with
  | nil => rfl
  | cons a rest ih =>
      simp only [keysOf, List.map_cons, List.mem_cons, not_or] at h
      rw [spreadInto_cons, ih (setK acc a.1 a.2) (by simpa [keysOf] using h.2),
        lookupK_setK, if_neg (fun hh => h.1 hh)]

theorem lookupK_spreadInto_mem {fs : ObjMap} {k : String} {v : JVal}
    (acc : ObjMap) (hwf : WFm fs) (h : lookupK fs k = some v) :
    lookupK (spreadInto acc fs) k = some v := by
  induction fs generalizing acc with
  | nil => simp [lookupK, List.find?] at h
  | cons a rest ih =>
      obtain ⟨ak, av⟩ := a
      rw [lookupK_cons] at h
      simp only [WFm, keysOf, List.map_cons, List.nodup_cons] at hwf
      rw [spreadInto_cons]
      by_cases ha : ak = k
      · rw [if_pos (show (ak, av).1 = k from ha)] at h
        rw [lookupK_spreadInto_not_mem _ (show k ∉ keysOf rest from ha ▸ hwf.1),
          lookupK_setK, if_pos ha.symm]
        exact h
      · rw [if_neg (show ¬((ak, av).1 = k) from ha)] at h
        exact ih _ hwf.2 h

theorem keysOf_map_replace (m : ObjMap) (k : String) (v : JVal) :
    keysOf (m.map (fun p => if p.1 == k then (k, v) else p)) = keysOf m := by
  induction m with
  | nil => rfl
  | cons a rest ih =>
      obtain ⟨ak, av⟩ := a
      rw [List.map_cons]
      by_cases ha : ak = k
      · rw [if_pos (show ((ak, av).1 == k) = true by simp [ha])]
        simp only [keysOf, List.map_cons] at ih ⊢
        rw [ih, ha]
      · rw [if_neg (show ¬(((ak, av).1 == k) = true) by simp [ha])]
        simp only [keysOf, List.map_cons] at ih ⊢
        rw [ih]

theorem keysOf_setK (m : ObjMap) (k : String) (v : JVal) :
    keysOf (setK m k v) =
    if m.any (fun p => p.1 == k) then keysOf m else keysOf m ++ [k] := by
  unfold setK
  by_cases hm : m.any (fun p => p.1 == k)
  · rw [if_pos hm, if_pos hm, keysOf_map_replace]
  · rw [if_neg hm, if_neg hm]
    simp [keysOf]

theorem WFm_setK {m : ObjMap} (k : String) (v : JVal) (h : WFm m) :
    WFm (setK m k v) := by
  unfold WFm
  rw [keysOf_setK]
  by_cases hm : m.any (fun p => p.1 == k)
  · simpa [hm] using h
  · rw [if_neg hm, List.nodup_append]
    refine ⟨h, List.nodup_singleton k, ?_⟩
    intro x hx hk
    simp only [List.mem_singleton] at hk
    subst hk
    simp only [List.any_eq_true, beq_iff_eq] at hm
    push_neg at hm
    simp only [keysOf, List.mem_map] at hx
    obtain ⟨p, hp, hpk⟩ := hx
    exact hm p hp hpk

theorem WFm_spreadInto {acc : ObjMap} (fs : ObjMap) (h : WFm acc) :
    WFm (spreadInto acc fs) := by
  induction fs generalizing acc with
  | nil => exact h
  | cons a rest ih => exact ih (WFm_setK a.1 a.2 h)

theorem WFm_spreadJ {acc : ObjMap} (v : JVal) (h : WFm acc) :
    WFm (spreadJ acc v) := by
  cases v <;> first
    | exact h
    | exact WFm_spreadInto _ h

theorem countK_cons (a : String × JVal) (m : ObjMap) (k : String) :
    countK (a :: m) k = (if a.1 = k then 1 else 0) + countK m k := by
  obtain ⟨ak, av⟩ := a
  by_cases h : ak = k
  · have hb : (ak == k) = true := by simp [h]
    simp [countK, List.filter, hb, h, Nat.add_comm]
  · have hb : (ak == k) = false := by simp [h]
    simp [countK, List.filter, hb, h]

theorem countK_eq_zero_of_not_mem {m : ObjMap} {k : String}
    (h : k ∉ keysOf m) : countK m k = 0 := by
  induction m with
  | nil => rfl
  | cons a rest ih =>
      simp only [keysOf, List.map_cons, List.mem_cons, not_or] at h
      rw [countK_cons, if_neg (fun hh => h.1 hh.symm),
        ih (by simpa [keysOf] using h.2)]

theorem countK_eq_one {m : ObjMap} {k : String} (hwf : WFm m)
    (h : (lookupK m k).isSome) : countK m k = 1 := by
  induction m with
  | nil => simp [lookupK, List.find?] at h
  | cons a rest ih =>
      obtain ⟨ak, av⟩ := a
      simp only [WFm, keysOf, List.map_cons, List.nodup_cons] at hwf
      rw [lookupK_cons] at h
      rw [countK_cons]
      by_cases ha : ak = k
      · rw [if_pos ha,
          countK_eq_zero_of_not_mem (by simpa [keysOf, ha] using hwf.1)]
      · rw [if_neg ha, Nat.zero_add]
        exact ih (by simpa [WFm, keysOf] using hwf.2) (by simpa [ha] using h)

/-! ## Structure lemmas about the resolver loop, the extractor loop, the
trim, and the shared metadata shape. -/

theorem callerLoop_eq_find (cwd filename : String) (l : List StackFrame) :
    callerLoop cwd filename l =
    match l.find? (qualifies cwd filename) with
    | some f => (f.getFileName.getD "unknown", f.getLineNumber.getD 0)
    | none => ("unknown", 0) := by
  induction l with
  | nil => rfl
  | cons f rest ih =>
      cases hq : qualifies cwd filename f
      · rw [List.find?_cons_of_neg _ (by simp [hq])]
        simpa [callerLoop, hq] using ih
      · rw [List.find?_cons_of_pos _ hq]
        simp only [callerLoop, hq, if_true]
        cases hf : f.getFileName <;> simp [hf, Option.getD]

theorem errLocLoop_sentinel (cwd : String) (lines : List String)
    (h : ∀ l ∈ lines,
      (lineMatch l).all (fun pn => containsSub pn.1 "node_modules") = true) :
    errLocLoop cwd lines = ⟨"unknown", 0⟩ := by
  induction lines with
  | nil => rfl
  | cons line rest ih =>
      have hl := h line (by simp)
      have hrest := ih (fun l hl2 => h l (by simp [hl2]))
      cases hm : lineMatch line with
      | none => simpa [errLocLoop, hm] using hrest
      | some pn =>
          obtain ⟨p, n⟩ := pn
          rw [hm] at hl
          simp only [Option.all_some] at hl
          simpa [errLocLoop, hm, hl] using hrest

theorem head?_dropWhile_not (p : Char → Bool) (l : List Char) :
    ∀ c, ((l.dropWhile p).head? = some c) → p c = false := by
  induction l with
  | nil => intro c h; simp [List.dropWhile] at h
  | cons a rest ih =>
      intro c h
      cases hp : p a
      · rw [List.dropWhile_cons_of_neg (by simp [hp])] at h
        simp only [List.head?_cons, Option.some.injEq] at h
        subst h
        exact hp
      · rw [List.dropWhile_cons_of_pos hp] at h
        exact ih c h

/-- The `{...ctx.userState, ...ctx.user, ...meta, caller}` metadata shape
shared by `logInfo`, `logWarn`, `logDebug` and the string branch of
`logError`: an explicit `meta` binding survives into the final object. -/
theorem lookupK_core_meta_explicit (us uu m : ObjMap) (c : JVal)
    {k : String} {v : JVal} (hm : WFm m) (hk : k ≠ "caller")
    (h : lookupK m k = some v) :
    lookupK (setK (spreadInto (spreadInto (spreadInto [] us) uu) m)
      "caller" c) k = some v := by
  rw [lookupK_setK, if_neg hk]
  exact lookupK_spreadInto_mem _ hm h

theorem lookupK_setK_caller (acc : ObjMap) (c : JVal) :
    lookupK (setK acc "caller" c) "caller" = some c := by
  rw [lookupK_setK, if_pos rfl]

theorem countK_setK_caller (acc : ObjMap) (c : JVal) (h : WFm acc) :
    countK (setK acc "caller" c) "caller" = 1 := by
  apply countK_eq_one (WFm_setK _ _ h)
  rw [lookupK_setK, if_pos rfl]
  rfl

/-! ## Claim theorems. -/

/-- Claim C7: on every execution of the caller resolver — frame resolved,
no qualifying frame, or an exception thrown during stack capture — the
global `Error.prepareStackTrace` hook holds its original pre-call value
after the resolver returns. -/
theorem c7_prepareStackTrace_restored :
    ∀ (Hook : Type) (orig custom : Hook)
      (capture : Except Unit (List StackFrame))
      (cwd filename : String) (skipFrames : Nat),
      (getCallerInfoFull Hook orig custom capture cwd filename skipFrames).2
        = orig := by
  intro Hook orig custom capture cwd filename skipFrames
  cases capture <;> rfl

/-- Claim C3: the caller resolver skips the first `skipFrames` frames and
returns the location (project-relative path and line) of the first
remaining frame that qualifies — resolvable file name, not in
`node_modules`, not the logging module, not relativizing outside the
project root; when no frame qualifies it returns exactly
`{file := "unknown", line := 0}`; and on the synthetic stack
`[loggerWrapperA, loggerWrapperB, appModuleX, dependencyModuleY]` with
`skipFrames = 2` it returns `appModuleX`'s location. -/
theorem c3_caller_resolver_selection :
    (∀ (env : LoggerEnv) (skip : Nat) (f : StackFrame) (fn : String),
      (env.frames.drop skip).find? (qualifies env.cwd env.filename) = some f →
      f.getFileName = some fn → fn ≠ "unknown" →
      getCallerInfo env skip =
        ⟨pathRelative env.cwd fn, f.getLineNumber.getD 0⟩) ∧
    (∀ (env : LoggerEnv) (skip : Nat),
      (env.frames.drop skip).find? (qualifies env.cwd env.filename) = none →
      getCallerInfo env skip = ⟨"unknown", 0⟩) ∧
    getCallerInfo envSynth 2 = ⟨"app/moduleX.js", 10⟩ := by
  refine ⟨?_, ?_, by decide⟩
  · intro env skip f fn hfind hfn hne
    simp only [getCallerInfo, getCallerInfoFull, callerLoop_eq_find, hfind,
      hfn, Option.getD_some]
    rw [if_pos hne]
  · intro env skip hfind
    simp only [getCallerInfo, getCallerInfoFull, callerLoop_eq_find, hfind]
    rfl

/-- Witness for C3: the selection clause applied to a one-frame stack. -/
theorem c3_caller_resolver_selection_witness :
    getCallerInfo ⟨"/project", "/project/app/logger.js",
      [⟨some "/project/app/b.js", some 3⟩]⟩ 0 =
      ⟨pathRelative "/project" "/project/app/b.js", 3⟩ :=
  c3_caller_resolver_selection.1
    ⟨"/project", "/project/app/logger.js",
      [⟨some "/project/app/b.js", some 3⟩]⟩ 0
    ⟨some "/project/app/b.js", some 3⟩ "/project/app/b.js"
    (by decide) rfl (by decide)

/-- Claim C4: applied to the stack text
`"Error: x\n at foo (/project/app/handlers/x.js:42:7)"` with project root
`/project`, the extractor returns `{file := "app/handlers/x.js", line := 42}`;
and whenever every line's match (under the extractor's two patterns) carries
a path referencing `node_modules`, it returns the sentinel.  The extractor
is purely textual: its model consumes only `cwd` and the error value, no
live stack. -/
theorem c4_error_location_extractor :
    getErrorLocation "/project"
      (.errv "Error" "x"
        (some "Error: x\n at foo (/project/app/handlers/x.js:42:7)")) =
      ⟨"app/handlers/x.js", 42⟩ ∧
    (∀ (cwd ename emsg st : String),
      (∀ l ∈ jsSplit '\n' st,
        (lineMatch l).all (fun pn => containsSub pn.1 "node_modules") = true) →
      getErrorLocation cwd (.errv ename emsg (some st)) = ⟨"unknown", 0⟩) := by
  refine ⟨by decide, ?_⟩
  intro cwd ename emsg st h
  by_cases hst : st = ""
  · subst hst
    rfl
  · have ht : (JVal.errv ename emsg (some st)).truthy = true := rfl
    have hs : jsGetStack (JVal.errv ename emsg (some st)) = .str st := rfl
    have hst2 : (JVal.str st).truthy = true := by
      simp [JVal.truthy, hst]
    simp only [getErrorLocation, ht, hs, hst2, Bool.not_true, Bool.or_self,
      Bool.false_eq_true, if_false]
    exact errLocLoop_sentinel cwd _ h

/-- Witness for C4: a stack whose only matching line lies inside
`node_modules` yields the sentinel. -/
theorem c4_error_location_extractor_witness :
    getErrorLocation "/p"
      (.errv "Error" "y"
        (some "Error: y\n    at z (/p/node_modules/a.js:1:2)")) =
      ⟨"unknown", 0⟩ :=
  c4_error_location_extractor.2 "/p" "Error" "y"
    "Error: y\n    at z (/p/node_modules/a.js:1:2)" (by decide)

/-- Claim C5: for every string `text`, `logUserMessage` records the
`message` field as the first 500 characters of `text` followed by `"..."`
when `text` is longer than 500 characters, and as `text` unchanged
otherwise. -/
theorem c5_message_truncation :
    ∀ (env : LoggerEnv) (user : JVal) (s : String) (st : JVal),
      user ≠ JVal.null → user ≠ JVal.undefV →
      lookupK (metaOf (logUserMessage env user (.str s) st)) "message" =
        some (.str (if 500 < s.data.length
          then String.mk (s.data.take 500) ++ "..." else s)) := by
  intro env user s st h1 h2
  have main : ∀ base : ObjMap,
      lookupK base "message" =
        some (.str (if 500 < s.data.length
          then String.mk (s.data.take 500) ++ "..." else s)) →
      lookupK (if st.truthy then
          (if (st.getProp "data").truthy && 0 < objKeysLen (st.getProp "data")
           then setK (setK base "userState"
                  (if (st.getProp "current").truthy then st.getProp "current"
                   else st)) "stateData" (st.getProp "data")
           else setK base "userState"
                  (if (st.getProp "current").truthy then st.getProp "current"
                   else st))
        else base) "message" =
        some (.str (if 500 < s.data.length
          then String.mk (s.data.take 500) ++ "..." else s)) := by
    intro base hbase
    by_cases hst : st.truthy = true
    · rw [if_pos hst]
      by_cases hd : ((st.getProp "data").truthy
          && 0 < objKeysLen (st.getProp "data")) = true
      · rw [if_pos hd, lookupK_setK, if_neg (by decide), lookupK_setK,
          if_neg (by decide)]
        exact hbase
      · rw [if_neg hd, lookupK_setK, if_neg (by decide)]
        exact hbase
    · rw [if_neg hst]
      exact hbase
  have hbase : ∀ uid uname fnm cal : JVal,
      lookupK [("userId", uid), ("username", uname), ("fullName", fnm),
        ("message", JVal.str (if 500 < s.data.length
          then String.mk (s.data.take 500) ++ "..." else s)),
        ("caller", cal)] "message" =
      some (.str (if 500 < s.data.length
        then String.mk (s.data.take 500) ++ "..." else s)) := by
    intro uid uname fnm cal
    rw [lookupK_cons,
      if_neg (fun h => absurd (show "userId" = "message" from h) (by decide)),
      lookupK_cons,
      if_neg (fun h => absurd (show "username" = "message" from h) (by decide)),
      lookupK_cons,
      if_neg (fun h => absurd (show "fullName" = "message" from h) (by decide)),
      lookupK_cons, if_pos rfl]
  cases user with
  | null => exact absurd rfl h1
  | undefV => exact absurd rfl h2
  | str u => exact main _ (hbase _ _ _ _)
  | num u => exact main _ (hbase _ _ _ _)
  | jbool u => exact main _ (hbase _ _ _ _)
  | obj u => exact main _ (hbase _ _ _ _)
  | errv a b c => exact main _ (hbase _ _ _ _)

/-- Witness for C5: a 501-character message is recorded as its first 500
characters plus an ellipsis. -/
theorem c5_message_truncation_witness :
    lookupK (metaOf (logUserMessage envSynth (.obj [("id", JVal.num 7)])
      (.str (String.mk (List.replicate 501 'a'))) JVal.null)) "message" =
      some (.str (String.mk (List.replicate 500 'a') ++ "...")) := by
  have h := c5_message_truncation envSynth (.obj [("id", JVal.num 7)])
    (String.mk (List.replicate 501 'a')) JVal.null
    (fun hh => JVal.noConfusion hh) (fun hh => JVal.noConfusion hh)
  rw [h, show (String.mk (List.replicate 501 'a')).data
      = List.replicate 501 'a' from rfl,
    List.length_replicate, if_pos (by norm_num), List.take_replicate]
  norm_num

/-- Claim C1 (refuted): two public logging operations do raise.
`logUserMessage` reads `.length` of its message with no try/catch, so a
`null` message throws a TypeError; and `logError` on a structured Error
value spreads the undeclared identifier `context` and throws a
ReferenceError. -/
theorem c1_public_ops_can_throw :
    logUserMessage envSynth (.obj [("id", JVal.num 1)]) JVal.null JVal.null
      = .error .typeError ∧
    logError envSynth (.errv "Error" "boom"
        (some "Error: boom\n    at /project/app/x.js:3:1"))
      (.obj []) (.obj []) = .error .referenceError := ⟨rfl, rfl⟩

/-- Claim C8 (refuted on its record clause): for every structured Error
input, `logError` raises a ReferenceError (undeclared identifier `context`
in the object literal) before any record carrying the stack text and error
name can be emitted. -/
theorem c8_logError_error_branch_throws :
    ∀ (env : LoggerEnv) (ename emsg : String) (stack : Option String)
      (ctx meta : JVal),
      logError env (.errv ename emsg stack) ctx meta
        = .error .referenceError :=
  fun _ _ _ _ _ _ => rfl

/-- Claim C10: when the first argument is a structured Error value, the
outcome of `logError` is independent of the third (`meta`) argument — the
Error branch never reads `meta`. -/
theorem c10_logError_meta_independent :
    ∀ (env : LoggerEnv) (ename emsg : String) (stack : Option String)
      (ctx m1 m2 : JVal),
      logError env (.errv ename emsg stack) ctx m1 =
      logError env (.errv ename emsg stack) ctx m2 :=
  fun _ _ _ _ _ _ _ => rfl

/-- Counterexample to C9 as stated: `stream.write` removes LEADING
whitespace too (`trim()`), so the logged message differs from the input
with only trailing whitespace removed. -/
theorem c9_cx_stream_trims_leading :
    (streamWrite "  GET /path 200\n").message = JVal.str "GET /path 200" ∧
    JVal.str "GET /path 200" ≠ JVal.str "  GET /path 200" :=
  ⟨rfl, fun h => absurd (JVal.str.inj h) (by decide)⟩

/-- Claim C9 as amended: the adapter logs, at `info` level with the fixed
synthetic caller label `http/morgan`, the input line with BOTH leading and
trailing whitespace removed: the message is an infix of the input whose
removed flanks are all whitespace, and whose own first and last characters
are not whitespace. -/
theorem c9_amended_stream_adapter :
    ∀ s : String,
      (streamWrite s).level = "info" ∧
      (streamWrite s).meta = [("caller", JVal.str "http/morgan")] ∧
      (streamWrite s).message = JVal.str (jsTrim s) ∧
      ∃ a b : List Char, a.all jsWhiteB ∧ b.all jsWhiteB ∧
        s.data = a ++ (jsTrim s).data ++ b ∧
        (∀ c, (jsTrim s).data.head? = some c → jsWhiteB c = false) ∧
        (∀ c, (jsTrim s).data.getLast? = some c → jsWhiteB c = false) := by
  intro s
  refine ⟨rfl, rfl, rfl, s.data.takeWhile jsWhiteB,
    ((s.data.dropWhile jsWhiteB).reverse.takeWhile jsWhiteB).reverse,
    ?_, ?_, ?_, ?_, ?_⟩
  · rw [List.all_eq_true]
    intro c hc
    exact List.mem_takeWhile_imp hc
  · rw [List.all_eq_true]
    intro c hc
    rw [List.mem_reverse] at hc
    exact List.mem_takeWhile_imp hc
  · have h1 : s.data =
        s.data.takeWhile jsWhiteB ++ s.data.dropWhile jsWhiteB :=
      (List.takeWhile_append_dropWhile _ _).symm
    have h2 : s.data.dropWhile jsWhiteB =
        ((s.data.dropWhile jsWhiteB).reverse.dropWhile jsWhiteB).reverse ++
        ((s.data.dropWhile jsWhiteB).reverse.takeWhile jsWhiteB).reverse := by
      conv =>
        lhs
        rw [← List.reverse_reverse (s.data.dropWhile jsWhiteB),
          ← List.takeWhile_append_dropWhile
            (p := jsWhiteB) (l := (s.data.dropWhile jsWhiteB).reverse)]
      rw [List.reverse_append]
    show s.data = _ ++ (((s.data.dropWhile jsWhiteB).reverse.dropWhile
      jsWhiteB).reverse) ++ _
    rw [List.append_assoc, ← h2]
    exact h1
  · intro c hc
    have hm : (s.data.dropWhile jsWhiteB).head? = some c := by
      have h2 : s.data.dropWhile jsWhiteB =
          ((s.data.dropWhile jsWhiteB).reverse.dropWhile jsWhiteB).reverse ++
          ((s.data.dropWhile jsWhiteB).reverse.takeWhile jsWhiteB).reverse := by
        conv =>
          lhs
          rw [← List.reverse_reverse (s.data.dropWhile jsWhiteB),
            ← List.takeWhile_append_dropWhile
              (p := jsWhiteB) (l := (s.data.dropWhile jsWhiteB).reverse)]
        rw [List.reverse_append]
      rw [h2]
      cases ht : ((s.data.dropWhile jsWhiteB).reverse.dropWhile
          jsWhiteB).reverse with
      | nil =>
          rw [show (jsTrim s).data = ((s.data.dropWhile
            jsWhiteB).reverse.dropWhile jsWhiteB).reverse from rfl, ht] at hc
          simp at hc
      | cons x xs =>
          rw [show (jsTrim s).data = ((s.data.dropWhile
            jsWhiteB).reverse.dropWhile jsWhiteB).reverse from rfl, ht] at hc
          simp only [List.head?_cons, Option.some.injEq] at hc
          simp [hc]
    exact head?_dropWhile_not jsWhiteB s.data c hm
  · intro c hc
    rw [show (jsTrim s).data = ((s.data.dropWhile
      jsWhiteB).reverse.dropWhile jsWhiteB).reverse from rfl,
      List.getLast?_reverse] at hc
    exact head?_dropWhile_not jsWhiteB _ c hc

/-- Witness for the amended C9: the adapter applied to a line with both
leading and trailing whitespace. -/
theorem c9_amended_stream_adapter_witness :
    (streamWrite "  GET /path 200\n").level = "info" ∧
    (streamWrite "  GET /path 200\n").message =
      JVal.str (jsTrim "  GET /path 200\n") :=
  ⟨(c9_amended_stream_adapter "  GET /path 200\n").1,
   (c9_amended_stream_adapter "  GET /path 200\n").2.2.1⟩

/-- Claim C6 (refuted for the file sink): at instant 0, a host at UTC
(offset 0) writes the file timestamp `"1970-01-01 05:00:00"` but a host at
UTC+5 (offset −300, Tashkent itself) writes `"1970-01-01 00:00:00"` — the
file-sink string depends on the host timezone because `toISOString`
renders UTC and the pre-compensation does not cancel.  The console
rendering, by contrast, is host-independent and always shows the UTC+5
wall clock. -/
theorem c6_file_timestamp_host_dependent :
    fileTimestamp 0 0 = "1970-01-01 05:00:00" ∧
    fileTimestamp (-300) 0 = "1970-01-01 00:00:00" ∧
    fileTimestamp (-300) 0 ≠ fileTimestamp 0 0 ∧
    consoleTimestamp (-300) 0 = "1970-01-01 05:00:00" ∧
    (∀ tz t : Int, consoleTimestamp tz t = renderUTC (t + 5 * 3600000)) := by
  refine ⟨by decide, by decide, by decide, by decide, ?_⟩
  intro tz t
  show renderUTC (t + tz * 60000 + 5 * 3600000 - tz * 60000) =
    renderUTC (t + 5 * 3600000)
  congr 1
  ring

/-- Two-field object literals have distinct keys. -/
theorem WFm_pair (k1 k2 : String) (v1 v2 : JVal) (h : k1 ≠ k2) :
    WFm [(k1, v1), (k2, v2)] := by
  simp [WFm, keysOf, h]

/-- Counterexample to C2 as stated: in `logUserAction` the ambient
`ctx.userState` field is spread AFTER the explicit `details`, so on a key
collision the ambient value, not the explicit one, reaches the record. -/
theorem c2_cx_ambient_overrides_explicit :
    lookupK (metaOf (logUserAction envSynth "act"
      (mkCtx [("phase", .str "ambient")] [])
      (.obj [("phase", .str "explicit")]))) "phase" =
      some (.str "ambient") ∧
    JVal.str "ambient" ≠ JVal.str "explicit" :=
  ⟨rfl, fun h => absurd (JVal.str.inj h) (by decide)⟩

/-- Claim C2 as amended: in `logInfo`, `logWarn`, `logDebug` and the
plain-string branch of `logError`, an explicit `meta` binding overrides a
colliding ambient context binding; in `logUserAction` the precedence is
reversed — ambient `ctx.user` beats ambient `ctx.userState` beats explicit
`details`; and in all five operations the computed `caller` field
overrides every colliding key and occurs exactly once in the record's
metadata.  (The Error branch of `logError` raises before building a
record.) -/
theorem c2_amended_field_merge :
    (∀ (env : LoggerEnv) (msg : String) (us uu m : ObjMap) (k : String)
      (v : JVal), WFm m → k ≠ "caller" → lookupK m k = some v →
      lookupK (metaOf (logInfo env msg (mkCtx us uu) (.obj m))) k = some v) ∧
    (∀ (env : LoggerEnv) (msg : String) (us uu m : ObjMap) (k : String)
      (v : JVal), WFm m → k ≠ "caller" → lookupK m k = some v →
      lookupK (metaOf (logWarn env msg (mkCtx us uu) (.obj m))) k = some v) ∧
    (∀ (env : LoggerEnv) (msg : String) (us uu m : ObjMap) (k : String)
      (v : JVal), WFm m → k ≠ "caller" → lookupK m k = some v →
      lookupK (metaOf (logDebug env msg (mkCtx us uu) (.obj m))) k = some v) ∧
    (∀ (env : LoggerEnv) (emsg : String) (us uu m : ObjMap) (k : String)
      (v : JVal), WFm m → k ≠ "caller" → lookupK m k = some v →
      lookupK (metaOf (logError env (.str emsg) (mkCtx us uu) (.obj m))) k
        = some v) ∧
    (∀ (env : LoggerEnv) (msg : String) (us uu m : ObjMap),
      lookupK (metaOf (logInfo env msg (mkCtx us uu) (.obj m))) "caller"
          = some (.str (callerStr env 2)) ∧
        countK (metaOf (logInfo env msg (mkCtx us uu) (.obj m))) "caller"
          = 1) ∧
    (∀ (env : LoggerEnv) (msg : String) (us uu m : ObjMap),
      lookupK (metaOf (logWarn env msg (mkCtx us uu) (.obj m))) "caller"
          = some (.str (callerStr env 2)) ∧
        countK (metaOf (logWarn env msg (mkCtx us uu) (.obj m))) "caller"
          = 1) ∧
    (∀ (env : LoggerEnv) (msg : String) (us uu m : ObjMap),
      lookupK (metaOf (logDebug env msg (mkCtx us uu) (.obj m))) "caller"
          = some (.str (callerStr env 2)) ∧
        countK (metaOf (logDebug env msg (mkCtx us uu) (.obj m))) "caller"
          = 1) ∧
    (∀ (env : LoggerEnv) (emsg : String) (us uu m : ObjMap),
      lookupK (metaOf (logError env (.str emsg) (mkCtx us uu) (.obj m)))
          "caller" = some (.str (callerStr env 2)) ∧
        countK (metaOf (logError env (.str emsg) (mkCtx us uu) (.obj m)))
          "caller" = 1) ∧
    (∀ (env : LoggerEnv) (act : String) (us uu d : ObjMap),
      lookupK (metaOf (logUserAction env act (mkCtx us uu) (.obj d)))
          "caller" = some (.str (callerStr env 2)) ∧
        countK (metaOf (logUserAction env act (mkCtx us uu) (.obj d)))
          "caller" = 1) ∧
    (∀ (env : LoggerEnv) (act : String) (us uu d : ObjMap) (k : String)
      (v : JVal), WFm uu → k ≠ "caller" → lookupK uu k = some v →
      lookupK (metaOf (logUserAction env act (mkCtx us uu) (.obj d))) k
        = some v) ∧
    (∀ (env : LoggerEnv) (act : String) (us uu d : ObjMap) (k : String)
      (v : JVal), k ∉ keysOf uu → WFm us → k ≠ "caller" →
      lookupK us k = some v →
      lookupK (metaOf (logUserAction env act (mkCtx us uu) (.obj d))) k
        = some v) ∧
    (∀ (env : LoggerEnv) (act : String) (us uu d : ObjMap) (k : String)
      (v : JVal), k ∉ keysOf uu → k ∉ keysOf us → WFm d → k ≠ "caller" →
      lookupK d k = some v →
      lookupK (metaOf (logUserAction env act (mkCtx us uu) (.obj d))) k
        = some v) := by
  refine ⟨?_, ?_, ?_, ?_, ?_, ?_, ?_, ?_, ?_, ?_, ?_, ?_⟩
  · intro env msg us uu m k v hw hk h
    exact lookupK_core_meta_explicit us uu m _ hw hk h
  · intro env msg us uu m k v hw hk h
    exact lookupK_core_meta_explicit us uu m _ hw hk h
  · intro env msg us uu m k v hw hk h
    exact lookupK_core_meta_explicit us uu m _ hw hk h
  · intro env emsg us uu m k v hw hk h
    exact lookupK_core_meta_explicit us uu m _ hw hk h
  · intro env msg us uu m
    exact ⟨lookupK_setK_caller _ _, countK_setK_caller _ _
      (WFm_spreadInto _ (WFm_spreadInto _ (WFm_spreadInto _ WFm_nil)))⟩
  · intro env msg us uu m
    exact ⟨lookupK_setK_caller _ _, countK_setK_caller _ _
      (WFm_spreadInto _ (WFm_spreadInto _ (WFm_spreadInto _ WFm_nil)))⟩
  · intro env msg us uu m
    exact ⟨lookupK_setK_caller _ _, countK_setK_caller _ _
      (WFm_spreadInto _ (WFm_spreadInto _ (WFm_spreadInto _ WFm_nil)))⟩
  · intro env emsg us uu m
    exact ⟨lookupK_setK_caller _ _, countK_setK_caller _ _
      (WFm_spreadInto _ (WFm_spreadInto _ (WFm_spreadInto _ WFm_nil)))⟩
  · intro env act us uu d
    exact ⟨lookupK_setK_caller _ _, countK_setK_caller _ _
      (WFm_spreadInto _ (WFm_spreadInto _ (WFm_spreadInto _
        (WFm_pair _ _ _ _ (by decide)))))⟩
  · intro env act us uu d k v hw hk h
    show lookupK (setK _ "caller" _) k = some v
    rw [lookupK_setK, if_neg hk]
    exact lookupK_spreadInto_mem _ hw h
  · intro env act us uu d k v huu hw hk h
    rw [show metaOf (logUserAction env act (mkCtx us uu) (.obj d)) =
        setK (spreadInto (spreadInto (spreadInto
          [("userId", JVal.undefV), ("username", JVal.undefV)] d) us) uu)
          "caller" (.str (callerStr env 2)) from rfl,
      lookupK_setK, if_neg hk, lookupK_spreadInto_not_mem _ huu]
    exact lookupK_spreadInto_mem _ hw h
  · intro env act us uu d k v huu hus hw hk h
    rw [show metaOf (logUserAction env act (mkCtx us uu) (.obj d)) =
        setK (spreadInto (spreadInto (spreadInto
          [("userId", JVal.undefV), ("username", JVal.undefV)] d) us) uu)
          "caller" (.str (callerStr env 2)) from rfl,
      lookupK_setK, if_neg hk, lookupK_spreadInto_not_mem _ huu,
      lookupK_spreadInto_not_mem _ hus]
    exact lookupK_spreadInto_mem _ hw h

/-- Witness for the amended C2: a concrete collision where the explicit
meta value survives in `logInfo`. -/
theorem c2_amended_field_merge_witness :
    lookupK (metaOf (logInfo envSynth "m"
      (mkCtx [("phase", .str "ambient")] [])
      (.obj [("phase", .str "explicit")]))) "phase" =
      some (.str "explicit") :=
  c2_amended_field_merge.1 envSynth "m" [("phase", .str "ambient")] []
    [("phase", .str "explicit")] "phase" (.str "explicit")
    (by simp [WFm, keysOf]) (by decide) rfl

end TgBotLogger
